import Mathlib

/-!
Verification of the fuel-stop route-planning backend
(`backend/route_planner`): a shallow embedding of `services.py`
(`RouteOptimizer`), of the coordinate convention in `views.py`, and of the
data model in `models.py`, together with theorems settling the stated
properties of the optimizer, the station query, and route retrieval.

Python floats are modelled as `ℚ`, Python ints as `ℤ`/`ℕ`, Python
exceptions as `Except Err`.  The external collaborators (spatial distance
of the station store, geocoder, directions provider, result cache) are
modelled as explicit parameters (`World`, `ProviderWorld`, `Cache`), and
the persisted station table as a `List Station` threaded through the
operations that can write to it.
-/

namespace RoutePlanner

/-- Geographic point, modelling a `django.contrib.gis` `Point` with
`x` = longitude and `y` = latitude (SRID 4326). -/
structure GeoPoint where
  x : ℚ
  y : ℚ
deriving DecidableEq

/-- A route coordinate pair as produced by `get_route`
(two consecutive floats of `shapePoints`). -/
abbrev Coord : Type := ℚ × ℚ

/-- Persisted station row (`models.Station`). -/
structure Station where
  opis_id : ℤ
  name : String
  address : String
  city : String
  state : String
  rack_id : ℤ
  price : ℚ
  location : GeoPoint
deriving DecidableEq

/-- Transient fuel-station view (`models.FuelStation` dataclass). -/
structure FuelStation where
  id : ℤ
  name : String
  address : String
  city : String
  state : String
  price : ℚ
  location : GeoPoint
deriving DecidableEq

/-- The `FuelStation` projection built at the end of
`find_nearby_stations`. -/
def toFuelStation (s : Station) : FuelStation :=
  ⟨s.opis_id, s.name, s.address, s.city, s.state, s.price, s.location⟩

/-- Python exceptions surfaced by the service code: `IndexError` from
list indexing and `ValueError` raised in `get_route`. -/
inductive Err where
  | indexOutOfBounds
  | valueError
deriving DecidableEq

/-- Outcome of one `geocode_station` attempt on a sentinel-located
station: the external call either yields a location (geocode cache hit,
or HTTP response with a result — the station is updated and saved),
yields no result (the response has no locations; the station is kept
unchanged), or raises (the station is reported as not geocoded). -/
inductive GeocodeOutcome where
  | updated (p : GeoPoint)
  | unchanged
  | failed
deriving DecidableEq

/-- External collaborators of the optimizer: the spatial distance used
by the station-store query (`Distance("location", point)`, miles), and
the geocoder outcome per station. -/
structure World where
  dist : GeoPoint → GeoPoint → ℚ
  geocodeOutcome : Station → GeocodeOutcome

/-- Configuration read from `settings` in `RouteOptimizer.__init__`. -/
structure Env where
  miles_per_gallon : ℚ
  max_range : ℚ

/-- The `(0, 0)` sentinel location meaning "needs geocoding". -/
def origin : GeoPoint := ⟨0, 0⟩

/-- Python `int()` applied to a float value: truncation toward zero. -/
def pyInt (q : ℚ) : ℤ := if 0 ≤ q then ⌊q⌋ else -⌊-q⌋

/-- `RouteOptimizer.geocode_station`, result component: `some s` when the
function returns `True` (with `s` the possibly updated station object),
`none` when it returns `False` (an exception occurred). -/
def geocode_station (w : World) (s : Station) : Option Station :=
  if s.location.x = 0 ∧ s.location.y = 0 then
    match w.geocodeOutcome s with
    | .updated p => some { s with location := p }
    | .unchanged => some s
    | .failed => none
  else some s

/-- Effect of `geocode_station` on the persisted row: `station.save()`
stores the new location exactly when a location was obtained. -/
def geocodeDbEffect (w : World) (s : Station) : Station :=
  if s.location.x = 0 ∧ s.location.y = 0 then
    match w.geocodeOutcome s with
    | .updated p => { s with location := p }
    | .unchanged => s
    | .failed => s
  else s

/-- `order_by("price", "distance")`: ascending price, ties by ascending
annotated distance. -/
def pairLe (a b : Station × ℚ) : Prop :=
  a.1.price < b.1.price ∨ (a.1.price = b.1.price ∧ a.2 ≤ b.2)

instance : DecidableRel pairLe := fun a b => by
  unfold pairLe; exact inferInstance

/-- Insertion step of the sort realising `order_by("price", "distance")`. -/
def insertStation (a : Station × ℚ) : List (Station × ℚ) → List (Station × ℚ)
  | [] => [a]
  | b :: bs => if pairLe a b then a :: b :: bs else b :: insertStation a bs

/-- The sort realising `order_by("price", "distance")` on the
distance-annotated rows. -/
def sortStations : List (Station × ℚ) → List (Station × ℚ)
  | [] => []
  | a :: as => insertStation a (sortStations as)

/-- The station-store query of `find_nearby_stations`: annotate each row
with `Distance("location", point)`, keep rows within `max_distance`
miles, order by price then distance, and take the first 5. -/
def nearbyCandidates (w : World) (db : List Station) (pt : GeoPoint) (maxd : ℚ) :
    List (Station × ℚ) :=
  (sortStations ((db.map fun s => (s, w.dist s.location pt)).filter
    fun sd => decide (sd.2 ≤ maxd))).take 5

/-- The geocoding pass of `find_nearby_stations`: stations whose
`geocode_station` call returns `True`, with their (possibly updated)
object and their query-time distance annotation. -/
def geocodedWithDist (w : World) : List (Station × ℚ) → List (Station × ℚ) :=
  List.filterMap fun sd => (geocode_station w sd.1).map fun t => (t, sd.2)

/-- `RouteOptimizer.find_nearby_stations`: first component is the
returned `FuelStation` list, second component is the station table after
the `station.save()` writes performed by `geocode_station` on the
fetched rows. -/
def find_nearby_stations (w : World) (db : List Station) (pt : GeoPoint)
    (maxd : ℚ) : List FuelStation × List Station :=
  ((geocodedWithDist w (nearbyCandidates w db pt maxd)).map
      fun sd => toFuelStation sd.1,
   db.map fun s =>
     if s ∈ (nearbyCandidates w db pt maxd).map Prod.fst then
       geocodeDbEffect w s
     else s)

/-- `RouteOptimizer.calculate_fuel_cost`. -/
def calculate_fuel_cost (env : Env) (distance : ℚ) (price : ℚ) : ℚ :=
  distance / env.miles_per_gallon * price

/-- `num_stops = int(total_distance / self.max_range) + 1`, as the count
of loop iterations (`range(num_stops)` is empty when the int is
negative). -/
def numStops (td mr : ℚ) : ℕ := (pyInt (td / mr) + 1).toNat

/-- `position = int((i * len(route_coords)) / num_stops)`. -/
def samplePosition (route : List Coord) (i ns : ℕ) : ℕ :=
  i * route.length / ns

/-- `lat, lon = route_coords[position]; point = Point(lon, lat)`:
the queried point built from the route pair at `position`
(`none` models the `IndexError` on an out-of-range position). -/
def samplePoint (route : List Coord) (position : ℕ) : Option GeoPoint :=
  (route.get? position).map fun c => ⟨c.2, c.1⟩

/-- `start_point = Point(route_coords[0][1], route_coords[0][0])`:
the queried point of the single-tank branch. -/
def startPoint (route : List Coord) : Option GeoPoint :=
  (route.get? 0).map fun c => ⟨c.2, c.1⟩

/-- `views.RouteOptimizationView.geocode_address`: the coordinate pair
`[location.longitude, location.latitude]` built from a geocoder result. -/
def geocode_address_pair (lon lat : ℚ) : Coord := (lon, lat)

/-- The `for i in range(num_stops)` loop of `optimize_fuel_stops`,
threading the station table; `acc`/`cost` are `optimal_stops` and
`total_cost`. -/
def stopsLoop (env : Env) (w : World) (route : List Coord) (seg : ℚ) (ns : ℕ) :
    List ℕ → List Station → List FuelStation → ℚ →
    (Except Err (List FuelStation × ℚ)) × List Station
  | [], db, acc, cost => (.ok (acc, cost), db)
  | i :: rest, db, acc, cost =>
    match samplePoint route (samplePosition route i ns) with
    | none => (.error .indexOutOfBounds, db)
    | some pt =>
      match (find_nearby_stations w db pt 50).1 with
      | [] =>
        stopsLoop env w route seg ns rest
          (find_nearby_stations w db pt 50).2 acc cost
      | best :: _ =>
        match acc.getLast? with
        | none =>
          stopsLoop env w route seg ns rest
            (find_nearby_stations w db pt 50).2 (acc ++ [best])
            (cost + calculate_fuel_cost env seg best.price)
        | some lastS =>
          if best.id ≠ lastS.id then
            stopsLoop env w route seg ns rest
              (find_nearby_stations w db pt 50).2 (acc ++ [best])
              (cost + calculate_fuel_cost env seg best.price)
          else
            stopsLoop env w route seg ns rest
              (find_nearby_stations w db pt 50).2 acc cost

/-- `RouteOptimizer.optimize_fuel_stops`: first component is the Python
return value (or the exception), second component is the station table
after the geocoding writes of the `find_nearby_stations` calls. -/
def optimize_fuel_stops (env : Env) (w : World) (db : List Station)
    (route_coords : List Coord) (total_distance : ℚ) :
    (Except Err (List FuelStation × ℚ)) × List Station :=
  if total_distance ≤ env.max_range then
    match startPoint route_coords with
    | none => (.error .indexOutOfBounds, db)
    | some pt =>
      match (find_nearby_stations w db pt 50).1 with
      | [] => (.ok ([], 0), (find_nearby_stations w db pt 50).2)
      | s :: _ =>
        (.ok ([s], calculate_fuel_cost env total_distance s.price),
         (find_nearby_stations w db pt 50).2)
  else
    stopsLoop env w route_coords
      (total_distance / ((pyInt (total_distance / env.max_range) + 1 : ℤ) : ℚ))
      (numStops total_distance env.max_range)
      (List.range (numStops total_distance env.max_range)) db [] 0

/-- Directions-provider response shape used by `get_route`
(`data["info"]["statuscode"]`, `data["info"]["messages"]`,
`data["route"]["shape"]["shapePoints"]`, `data["route"]["distance"]`). -/
structure DirectionsResponse where
  statuscode : ℤ
  messages : List String
  shapePoints : List ℚ
  distance : ℚ

/-- The external directions provider: the parsed JSON response for a
`(start, end)` request. -/
structure ProviderWorld where
  response : String → String → DirectionsResponse

/-- `cache_key = f"route_\x7bstart\x7d_\x7bend\x7d"`. -/
def routeKey (s e : String) : String := "route_" ++ s ++ "_" ++ e

/-- A `(coordinates, total_distance)` result of `get_route`. -/
abbrev RouteResult : Type := List Coord × ℚ

/-- The Django result cache restricted to route results. -/
abbrev Cache : Type := String → Option RouteResult

/-- `cache.set`. -/
def cacheSet (c : Cache) (k : String) (v : RouteResult) : Cache :=
  fun q => if q = k then some v else c q

/-- The pairing loop
`for i in range(0, len(shape_points), 2): coordinates.append([shape_points[i], shape_points[i + 1]])`
(`IndexError` on an odd-length list). -/
def pairUp : List ℚ → Except Err (List Coord)
  | [] => .ok []
  | [_] => .error .indexOutOfBounds
  | a :: b :: rest => (pairUp rest).map fun cs => (a, b) :: cs

/-- `RouteOptimizer.get_route`: returns the result (or exception), the
cache after the call, and whether `requests.get` was invoked. -/
def get_route (pw : ProviderWorld) (c : Cache) (s e : String) :
    Except Err RouteResult × Cache × Bool :=
  match c (routeKey s e) with
  | some r => (.ok r, c, false)
  | none =>
    if (pw.response s e).statuscode ≠ 0 then (.error .valueError, c, true)
    else
      match pairUp (pw.response s e).shapePoints with
      | .error err => (.error err, c, true)
      | .ok coords =>
        (.ok (coords, (pw.response s e).distance),
         cacheSet c (routeKey s e) (coords, (pw.response s e).distance), true)

/-- The frame relation of the station store under optimization: all
identity and price fields preserved, and a station whose stored location
is not the `(0, 0)` sentinel is fully unchanged. -/
def stationFrame (s t : Station) : Prop :=
  t.opis_id = s.opis_id ∧ t.name = s.name ∧ t.address = s.address ∧
  t.city = s.city ∧ t.state = s.state ∧ t.rack_id = s.rack_id ∧
  t.price = s.price ∧ (s.location ≠ origin → t = s)

/-! Concrete instances used to evaluate the embedding. -/

/-- A world with no station motion: distance constantly zero, every
geocode attempt leaves the station unchanged. -/
def wPlain : World := ⟨fun _ _ => 0, fun _ => .unchanged⟩

/-- A world whose spatial distance is 0 between coinciding points and 20
miles otherwise, and whose geocoder relocates every sentinel station to
`(10, 10)`. -/
def wGeo : World :=
  ⟨fun p q => if p = q then 0 else 20, fun _ => .updated ⟨10, 10⟩⟩

/-- A station with the `(0, 0)` sentinel location. -/
def s00 : Station := ⟨1, "A", "1 Main St", "Big Cabin", "OK", 307, 3, origin⟩

/-- A geocoded station away from the sentinel. -/
def sTex : Station := ⟨2, "B", "456 Test Ave", "TestTown", "TX", 420, 4, ⟨5, 5⟩⟩

/-- A sample configuration: 10 miles per gallon, 500 miles of range. -/
def env0 : Env := ⟨10, 500⟩

/-- A provider that answers every request successfully with two shape
points and distance 5. -/
def pwOk : ProviderWorld := ⟨fun _ _ => ⟨0, [], [1, 2, 3, 4], 5⟩⟩

/-- A provider that reports failure (statuscode 1) on every request. -/
def pwBad : ProviderWorld := ⟨fun _ _ => ⟨1, ["Error"], [], 0⟩⟩

/-- The empty cache. -/
def emptyCache : Cache := fun _ => none

/-! Ordering lemmas for the station sort. -/

theorem pairLe_total (a b : Station × ℚ) : pairLe a b ∨ pairLe b a := by
  unfold pairLe
  rcases lt_trichotomy a.1.price b.1.price with h | h | h
  · exact Or.inl (Or.inl h)
  · rcases le_total a.2 b.2 with h2 | h2
    · exact Or.inl (Or.inr ⟨h, h2⟩)
    · exact Or.inr (Or.inr ⟨h.symm, h2⟩)
  · exact Or.inr (Or.inl h)

theorem pairLe_trans {a b c : Station × ℚ} (h1 : pairLe a b) (h2 : pairLe b c) :
    pairLe a c := by
  rcases h1 with h1 | ⟨e1, d1⟩ <;> rcases h2 with h2 | ⟨e2, d2⟩
  · exact Or.inl (h1.trans h2)
  · exact Or.inl (lt_of_lt_of_le h1 (le_of_eq e2))
  · exact Or.inl (lt_of_le_of_lt (le_of_eq e1) h2)
  · exact Or.inr ⟨e1.trans e2, d1.trans d2⟩

theorem pairLe_price {a b : Station × ℚ} (h : pairLe a b) :
    a.1.price ≤ b.1.price := by
  rcases h with h | ⟨h, _⟩
  · exact le_of_lt h
  · exact le_of_eq h

theorem mem_insertStation {x a : Station × ℚ} {l : List (Station × ℚ)} :
    x ∈ insertStation a l ↔ x = a ∨ x ∈ l := by
  induction l with
  | nil => simp [insertStation]
  | cons b bs ih =>
    unfold insertStation
    split
    · simp [List.mem_cons]
    · simp only [List.mem_cons, ih]
      tauto

theorem pairwise_insertStation {a : Station × ℚ} {l : List (Station × ℚ)}
    (h : l.Pairwise pairLe) : (insertStation a l).Pairwise pairLe := by
  induction l with
  | nil => simp [insertStation]
  | cons b bs ih =>
    rcases List.pairwise_cons.mp h with ⟨hb, hbs⟩
    unfold insertStation
    split
    · rename_i hab
      refine List.pairwise_cons.mpr ⟨?_, h⟩
      intro x hx
      rcases List.mem_cons.mp hx with rfl | hx
      · exact hab
      · exact pairLe_trans hab (hb x hx)
    · rename_i hab
      have hba : pairLe b a := (pairLe_total a b).resolve_left hab
      refine List.pairwise_cons.mpr ⟨?_, ih hbs⟩
      intro x hx
      rcases mem_insertStation.mp hx with rfl | hx
      · exact hba
      · exact hb x hx

theorem pairwise_sortStations (l : List (Station × ℚ)) :
    (sortStations l).Pairwise pairLe := by
  induction l with
  | nil => simp [sortStations]
  | cons a as ih => exact pairwise_insertStation ih

theorem mem_sortStations {x : Station × ℚ} {l : List (Station × ℚ)} :
    x ∈ sortStations l ↔ x ∈ l := by
  induction l with
  | nil => simp [sortStations]
  | cons a as ih =>
    unfold sortStations
    rw [mem_insertStation]
    simp [ih]

/-! Geocoding lemmas. -/

theorem location_eq_origin {p : GeoPoint} (hx : p.x = 0) (hy : p.y = 0) :
    p = origin := by
  cases p
  simp only [origin] at hx hy ⊢
  simp_all

theorem geocode_station_fields {w : World} {s t : Station}
    (h : geocode_station w s = some t) :
    t.opis_id = s.opis_id ∧ t.name = s.name ∧ t.price = s.price := by
  unfold geocode_station at h
  split at h
  · cases hg : w.geocodeOutcome s <;> rw [hg] at h <;>
      simp only [Option.some.injEq, reduceCtorEq] at h
    · subst h
      exact ⟨rfl, rfl, rfl⟩
    · subst h
      exact ⟨rfl, rfl, rfl⟩
  · simp only [Option.some.injEq] at h
    subst h
    exact ⟨rfl, rfl, rfl⟩

theorem geocodeDbEffect_frame (w : World) (s : Station) :
    stationFrame s (geocodeDbEffect w s) := by
  unfold stationFrame geocodeDbEffect
  split
  · rename_i hxy
    have hloc : s.location = origin := location_eq_origin hxy.1 hxy.2
    cases w.geocodeOutcome s
    · exact ⟨rfl, rfl, rfl, rfl, rfl, rfl, rfl, fun hne => absurd hloc hne⟩
    · exact ⟨rfl, rfl, rfl, rfl, rfl, rfl, rfl, fun _ => rfl⟩
    · exact ⟨rfl, rfl, rfl, rfl, rfl, rfl, rfl, fun _ => rfl⟩
  · exact ⟨rfl, rfl, rfl, rfl, rfl, rfl, rfl, fun _ => rfl⟩

/-! Station-query lemmas. -/

theorem pairwise_nearbyCandidates (w : World) (db : List Station)
    (pt : GeoPoint) (maxd : ℚ) :
    (nearbyCandidates w db pt maxd).Pairwise pairLe :=
  List.Pairwise.sublist (List.take_sublist _ _) (pairwise_sortStations _)

theorem length_nearbyCandidates_le (w : World) (db : List Station)
    (pt : GeoPoint) (maxd : ℚ) :
    (nearbyCandidates w db pt maxd).length ≤ 5 := by
  unfold nearbyCandidates
  rw [List.length_take]
  exact min_le_left _ _

theorem mem_nearbyCandidates {w : World} {db : List Station} {pt : GeoPoint}
    {maxd : ℚ} {sd : Station × ℚ} (h : sd ∈ nearbyCandidates w db pt maxd) :
    sd.1 ∈ db ∧ sd.2 = w.dist sd.1.location pt ∧ sd.2 ≤ maxd := by
  unfold nearbyCandidates at h
  have h1 := List.mem_of_mem_take h
  rw [mem_sortStations, List.mem_filter] at h1
  rcases h1 with ⟨h1, h2⟩
  rcases List.mem_map.mp h1 with ⟨s, hs, rfl⟩
  exact ⟨hs, rfl, by simpa using h2⟩

theorem pairwise_geocodedWithDist {w : World} {l : List (Station × ℚ)}
    (h : l.Pairwise pairLe) : (geocodedWithDist w l).Pairwise pairLe := by
  induction l with
  | nil => simp [geocodedWithDist]
  | cons a as ih =>
    rcases List.pairwise_cons.mp h with ⟨ha, has⟩
    unfold geocodedWithDist at ih ⊢
    rw [List.filterMap_cons]
    cases hg : geocode_station w a.1 with
    | none => simpa using ih has
    | some t =>
      simp only [Option.map_some']
      refine List.pairwise_cons.mpr ⟨?_, ih has⟩
      intro x hx
      rcases List.mem_filterMap.mp hx with ⟨b, hb, hbx⟩
      cases hg2 : geocode_station w b.1 with
      | none => rw [hg2] at hbx; simp at hbx
      | some u =>
        rw [hg2] at hbx
        simp only [Option.map_some', Option.some.injEq] at hbx
        subst hbx
        have hab : pairLe a b := ha b hb
        have k1 := geocode_station_fields hg
        have k2 := geocode_station_fields hg2
        unfold pairLe at hab ⊢
        rcases hab with hlt | ⟨heq, hd⟩
        · exact Or.inl (by rw [k1.2.2, k2.2.2]; exact hlt)
        · exact Or.inr ⟨by rw [k1.2.2, k2.2.2]; exact heq, hd⟩

theorem mem_geocodedWithDist {w : World} {l : List (Station × ℚ)}
    {td : Station × ℚ} (h : td ∈ geocodedWithDist w l) :
    ∃ sd ∈ l, geocode_station w sd.1 = some td.1 ∧ td.2 = sd.2 := by
  unfold geocodedWithDist at h
  rcases List.mem_filterMap.mp h with ⟨sd, hsd, hmap⟩
  cases hg : geocode_station w sd.1 with
  | none => rw [hg] at hmap; simp at hmap
  | some t =>
    rw [hg] at hmap
    simp only [Option.map_some', Option.some.injEq] at hmap
    subst hmap
    exact ⟨sd, hsd, hg, rfl⟩

theorem nearby_length_le (w : World) (db : List Station) (pt : GeoPoint)
    (maxd : ℚ) : (find_nearby_stations w db pt maxd).1.length ≤ 5 := by
  unfold find_nearby_stations geocodedWithDist
  simp only [List.length_map]
  exact le_trans (List.length_filterMap_le _ _)
    (length_nearbyCandidates_le w db pt maxd)

theorem nearby_pairwise_price (w : World) (db : List Station) (pt : GeoPoint)
    (maxd : ℚ) :
    ((find_nearby_stations w db pt maxd).1).Pairwise
      fun a b => a.price ≤ b.price := by
  unfold find_nearby_stations
  rw [List.pairwise_map]
  exact (pairwise_geocodedWithDist
    (pairwise_nearbyCandidates w db pt maxd)).imp fun h => pairLe_price h

theorem nearby_mem {w : World} {db : List Station} {pt : GeoPoint} {maxd : ℚ}
    {fs : FuelStation} (h : fs ∈ (find_nearby_stations w db pt maxd).1) :
    ∃ s ∈ db, w.dist s.location pt ≤ maxd ∧ fs.id = s.opis_id ∧
      fs.price = s.price ∧ fs.name = s.name := by
  unfold find_nearby_stations at h
  rcases List.mem_map.mp h with ⟨td, htd, rfl⟩
  rcases mem_geocodedWithDist htd with ⟨sd, hsd, hg, hd2⟩
  rcases mem_nearbyCandidates hsd with ⟨hmem, hdist, hle⟩
  have hf := geocode_station_fields hg
  exact ⟨sd.1, hmem, by rw [← hdist]; exact hle,
    by simpa [toFuelStation] using hf.1,
    by simpa [toFuelStation] using hf.2.2,
    by simpa [toFuelStation] using hf.2.1⟩

theorem nearby_empty_of_none {w : World} {db : List Station} {pt : GeoPoint}
    {maxd : ℚ} (h : ∀ s ∈ db, ¬ (w.dist s.location pt ≤ maxd)) :
    (find_nearby_stations w db pt maxd).1 = [] := by
  have hf : ((db.map fun s => (s, w.dist s.location pt)).filter
      fun sd => decide (sd.2 ≤ maxd)) = [] := by
    rw [List.filter_eq_nil_iff]
    intro sd hsd
    rcases List.mem_map.mp hsd with ⟨s, hs, rfl⟩
    simpa using h s hs
  unfold find_nearby_stations nearbyCandidates
  rw [hf]
  rfl

/-! Frame lemmas for the station store. -/

theorem stationFrame_refl (s : Station) : stationFrame s s :=
  ⟨rfl, rfl, rfl, rfl, rfl, rfl, rfl, fun _ => rfl⟩

theorem stationFrame_trans {s t u : Station} (h1 : stationFrame s t)
    (h2 : stationFrame t u) : stationFrame s u := by
  obtain ⟨a1, b1, c1, d1, e1, f1, g1, l1⟩ := h1
  obtain ⟨a2, b2, c2, d2, e2, f2, g2, l2⟩ := h2
  refine ⟨a2.trans a1, b2.trans b1, c2.trans c1, d2.trans d1, e2.trans e1,
    f2.trans f1, g2.trans g1, ?_⟩
  intro hne
  have ht : t = s := l1 hne
  have hu : u = t := l2 (by rw [ht]; exact hne)
  rw [hu, ht]

theorem forall₂_frame_refl (db : List Station) :
    List.Forall₂ stationFrame db db := by
  induction db with
  | nil => exact List.Forall₂.nil
  | cons s ss ih => exact List.Forall₂.cons (stationFrame_refl s) ih

theorem forall₂_frame_map (db : List Station) (f : Station → Station)
    (hf : ∀ s, stationFrame s (f s)) :
    List.Forall₂ stationFrame db (db.map f) := by
  induction db with
  | nil => simp
  | cons s ss ih =>
    rw [List.map_cons]
    exact List.Forall₂.cons (hf s) ih

theorem forall₂_frame_trans {a b c : List Station}
    (h1 : List.Forall₂ stationFrame a b)
    (h2 : List.Forall₂ stationFrame b c) :
    List.Forall₂ stationFrame a c := by
  induction h1 generalizing c with
  | nil => cases h2; exact List.Forall₂.nil
  | cons hsf tail ih =>
    cases h2 with
    | cons hsf2 tail2 => exact List.Forall₂.cons (stationFrame_trans hsf hsf2) (ih tail2)

theorem nearby_db_frame (w : World) (db : List Station) (pt : GeoPoint)
    (maxd : ℚ) :
    List.Forall₂ stationFrame db (find_nearby_stations w db pt maxd).2 := by
  unfold find_nearby_stations
  refine forall₂_frame_map db _ fun s => ?_
  split
  · exact geocodeDbEffect_frame w s
  · exact stationFrame_refl s

/-! Sampling-position lemmas. -/

theorem samplePosition_lt {route : List Coord} {i ns : ℕ}
    (hroute : route ≠ []) (hi : i < ns) :
    samplePosition route i ns < route.length := by
  have hlen : 0 < route.length := List.length_pos.mpr hroute
  have hns : 0 < ns := lt_of_le_of_lt (Nat.zero_le i) hi
  unfold samplePosition
  rw [Nat.div_lt_iff_lt_mul hns]
  calc i * route.length < ns * route.length :=
        Nat.mul_lt_mul_of_pos_right hi hlen
    _ = route.length * ns := Nat.mul_comm ns route.length

theorem samplePoint_isSome {route : List Coord} {pos : ℕ}
    (h : pos < route.length) :
    ∃ c : Coord, route.get? pos = some c ∧
      samplePoint route pos = some ⟨c.2, c.1⟩ := by
  have hg := List.get?_eq_get h
  exact ⟨route.get ⟨pos, h⟩, hg, by unfold samplePoint; rw [hg]; rfl⟩

/-! Loop invariants of `optimize_fuel_stops`. -/

theorem stopsLoop_spec (env : Env) (w : World) (route : List Coord) (seg : ℚ)
    (ns : ℕ) (l : List ℕ) :
    ∀ (db : List Station) (acc : List FuelStation) (cost : ℚ),
    (∀ i ∈ l, samplePosition route i ns < route.length) →
    ∃ news : List FuelStation,
      (stopsLoop env w route seg ns l db acc cost).1 =
        .ok (acc ++ news,
          cost + (news.map fun s => calculate_fuel_cost env seg s.price).sum) ∧
      news.length ≤ l.length ∧
      ∀ s ∈ news, ∃ i ∈ l, ∃ db2 pt rest,
        samplePoint route (samplePosition route i ns) = some pt ∧
        (find_nearby_stations w db2 pt 50).1 = s :: rest := by
  induction l with
  | nil =>
    intro db acc cost _
    exact ⟨[], by simp [stopsLoop], by simp, by simp⟩
  | cons i rest ih =>
    intro db acc cost hpos
    have hi := hpos i (List.mem_cons_self i rest)
    obtain ⟨c, hc, hsp⟩ := samplePoint_isSome hi
    simp only [stopsLoop, hsp]
    cases hst : (find_nearby_stations w db ⟨c.2, c.1⟩ 50).1 with
    | nil =>
      obtain ⟨news, h1, h2, h3⟩ :=
        ih (find_nearby_stations w db ⟨c.2, c.1⟩ 50).2 acc cost
          fun j hj => hpos j (List.mem_cons_of_mem i hj)
      refine ⟨news, h1, le_trans h2 (Nat.le_succ _), fun s hs => ?_⟩
      obtain ⟨j, hj, rest2⟩ := h3 s hs
      exact ⟨j, List.mem_cons_of_mem i hj, rest2⟩
    | cons best rst =>
      have happend : ∀ db2,
          (∃ news : List FuelStation,
            (stopsLoop env w route seg ns rest db2 (acc ++ [best])
              (cost + calculate_fuel_cost env seg best.price)).1 =
              .ok (acc ++ [best] ++ news,
                cost + calculate_fuel_cost env seg best.price +
                  (news.map fun s => calculate_fuel_cost env seg s.price).sum) ∧
            news.length ≤ rest.length ∧
            ∀ s ∈ news, ∃ i2 ∈ rest, ∃ db3 pt rest3,
              samplePoint route (samplePosition route i2 ns) = some pt ∧
              (find_nearby_stations w db3 pt 50).1 = s :: rest3) →
          ∃ news : List FuelStation,
            (stopsLoop env w route seg ns rest db2 (acc ++ [best])
              (cost + calculate_fuel_cost env seg best.price)).1 =
              .ok (acc ++ news,
                cost +
                  (news.map fun s => calculate_fuel_cost env seg s.price).sum) ∧
            news.length ≤ (i :: rest).length ∧
            ∀ s ∈ news, ∃ i2 ∈ i :: rest, ∃ db3 pt rest3,
              samplePoint route (samplePosition route i2 ns) = some pt ∧
              (find_nearby_stations w db3 pt 50).1 = s :: rest3 := by
        intro db2 hind
        obtain ⟨news, h1, h2, h3⟩ := hind
        refine ⟨best :: news, ?_, by simpa using Nat.succ_le_succ h2,
          fun s hs => ?_⟩
        · rw [h1]
          have e1 : acc ++ [best] ++ news = acc ++ best :: news := by simp
          have e2 : cost + calculate_fuel_cost env seg best.price +
              (news.map fun s => calculate_fuel_cost env seg s.price).sum =
              cost + ((best :: news).map
                fun s => calculate_fuel_cost env seg s.price).sum := by
            simp only [List.map_cons, List.sum_cons]
            ring
          rw [e1, e2]
        · rcases List.mem_cons.mp hs with rfl | hs
          · exact ⟨i, List.mem_cons_self i rest, db, ⟨c.2, c.1⟩, rst, hsp, hst⟩
          · obtain ⟨j, hj, rest2⟩ := h3 s hs
            exact ⟨j, List.mem_cons_of_mem i hj, rest2⟩
      cases hlast : acc.getLast? with
      | none =>
        simp only []
        exact happend _
          (ih (find_nearby_stations w db ⟨c.2, c.1⟩ 50).2 (acc ++ [best])
            (cost + calculate_fuel_cost env seg best.price)
            fun j hj => hpos j (List.mem_cons_of_mem i hj))
      | some lastS =>
        simp only []
        by_cases hid : best.id ≠ lastS.id
        · rw [if_pos hid]
          exact happend _
            (ih (find_nearby_stations w db ⟨c.2, c.1⟩ 50).2 (acc ++ [best])
              (cost + calculate_fuel_cost env seg best.price)
              fun j hj => hpos j (List.mem_cons_of_mem i hj))
        · rw [if_neg hid]
          obtain ⟨news, h1, h2, h3⟩ :=
            ih (find_nearby_stations w db ⟨c.2, c.1⟩ 50).2 acc cost
              fun j hj => hpos j (List.mem_cons_of_mem i hj)
          refine ⟨news, h1, le_trans h2 (Nat.le_succ _), fun s hs => ?_⟩
          obtain ⟨j, hj, rest2⟩ := h3 s hs
          exact ⟨j, List.mem_cons_of_mem i hj, rest2⟩

theorem stopsLoop_chain (env : Env) (w : World) (route : List Coord) (seg : ℚ)
    (ns : ℕ) (l : List ℕ) :
    ∀ (db : List Station) (acc : List FuelStation) (cost : ℚ)
      (stops : List FuelStation) (cret : ℚ),
    acc.Chain' (fun a b => a.id ≠ b.id) →
    (stopsLoop env w route seg ns l db acc cost).1 = .ok (stops, cret) →
    stops.Chain' (fun a b => a.id ≠ b.id) := by
  induction l with
  | nil =>
    intro db acc cost stops cret hch heq
    simp only [stopsLoop, Except.ok.injEq, Prod.mk.injEq] at heq
    rw [← heq.1]
    exact hch
  | cons i rest ih =>
    intro db acc cost stops cret hch heq
    simp only [stopsLoop] at heq
    cases hsp : samplePoint route (samplePosition route i ns) with
    | none => rw [hsp] at heq; simp at heq
    | some pt =>
      rw [hsp] at heq
      simp only [] at heq
      cases hst : (find_nearby_stations w db pt 50).1 with
      | nil =>
        rw [hst] at heq
        simp only [] at heq
        exact ih _ _ _ _ _ hch heq
      | cons best rst =>
        rw [hst] at heq
        simp only [] at heq
        cases hlast : acc.getLast? with
        | none =>
          rw [hlast] at heq
          simp only [] at heq
          have hacc : acc = [] := List.getLast?_eq_none_iff.mp hlast
          subst hacc
          exact ih _ _ _ _ _ (by simp) heq
        | some lastS =>
          rw [hlast] at heq
          simp only [] at heq
          by_cases hid : best.id ≠ lastS.id
          · rw [if_pos hid] at heq
            have hch2 : (acc ++ [best]).Chain' fun a b => a.id ≠ b.id := by
              rw [List.chain'_append]
              refine ⟨hch, by simp, fun x hx y hy => ?_⟩
              rw [hlast] at hx
              simp only [Option.mem_def, Option.some.injEq] at hx
              simp only [List.head?_cons, Option.mem_def, Option.some.injEq] at hy
              subst hx
              subst hy
              exact fun hxy => hid (hxy.symm)
            exact ih _ _ _ _ _ hch2 heq
          · rw [if_neg hid] at heq
            exact ih _ _ _ _ _ hch heq

theorem stopsLoop_frame (env : Env) (w : World) (route : List Coord) (seg : ℚ)
    (ns : ℕ) (l : List ℕ) :
    ∀ (db : List Station) (acc : List FuelStation) (cost : ℚ),
    List.Forall₂ stationFrame db
      (stopsLoop env w route seg ns l db acc cost).2 := by
  induction l with
  | nil =>
    intro db acc cost
    simp only [stopsLoop]
    exact forall₂_frame_refl db
  | cons i rest ih =>
    intro db acc cost
    simp only [stopsLoop]
    cases hsp : samplePoint route (samplePosition route i ns) with
    | none => exact forall₂_frame_refl db
    | some pt =>
      simp only []
      cases hst : (find_nearby_stations w db pt 50).1 with
      | nil =>
        simp only []
        exact forall₂_frame_trans (nearby_db_frame w db pt 50) (ih _ _ _)
      | cons best rst =>
        simp only []
        cases hlast : acc.getLast? with
        | none =>
          simp only []
          exact forall₂_frame_trans (nearby_db_frame w db pt 50) (ih _ _ _)
        | some lastS =>
          simp only []
          by_cases hid : best.id ≠ lastS.id
          · rw [if_pos hid]
            exact forall₂_frame_trans (nearby_db_frame w db pt 50) (ih _ _ _)
          · rw [if_neg hid]
            exact forall₂_frame_trans (nearby_db_frame w db pt 50) (ih _ _ _)

theorem pyInt_of_nonneg {q : ℚ} (h : 0 ≤ q) : pyInt q = ⌊q⌋ := if_pos h

/-! Claim theorems. -/

/-- C10: in the multi-stop loop of `optimize_fuel_stops`, with a nonempty
route and `total_distance > max_range > 0`, every sampled index
`int((i * len(route)) / num_stops)` for `i < num_stops` is strictly less
than `len(route)`, so the loop never indexes the route out of bounds. -/
theorem C10_positions_in_bounds (route : List Coord) (td mr : ℚ) (i : ℕ)
    (hroute : route ≠ []) (hmr : 0 < mr) (htd : mr < td)
    (hi : i < numStops td mr) :
    samplePosition route i (numStops td mr) < route.length :=
  samplePosition_lt hroute hi

theorem C10_witness :
    (([((29 : ℚ), (-95 : ℚ))] : List Coord) ≠ [] ∧ (0 : ℚ) < 500 ∧
      (500 : ℚ) < 1250 ∧ 2 < numStops 1250 500) ∧
    samplePosition [((29 : ℚ), (-95 : ℚ))] 2 (numStops 1250 500) <
      ([((29 : ℚ), (-95 : ℚ))] : List Coord).length :=
  ⟨⟨by decide, by norm_num, by norm_num, by norm_num [numStops, pyInt]⟩,
   C10_positions_in_bounds [((29 : ℚ), (-95 : ℚ))] 1250 500 2 (by decide)
     (by norm_num) (by norm_num) (by norm_num [numStops, pyInt])⟩

/-- C8 counterexample: the pipeline is not longitude-first.  Geocoding in
`views.py` produces the pair `[longitude, latitude]`, but the query point
`optimize_fuel_stops` builds from a route pair puts the pair's second
component into the `x` (longitude) slot: for the geocoded pair with
longitude 1 and latitude 2, the queried point is `(2, 1)`, not `(1, 2)`. -/
theorem C8_counterexample :
    samplePoint [geocode_address_pair 1 2] 0 ≠ some ⟨1, 2⟩ ∧
    samplePoint [geocode_address_pair 1 2] 0 = some ⟨2, 1⟩ := by
  decide

/-- C8 (amended): both query sites of `optimize_fuel_stops` interpret route
pairs the same way, latitude first: the single-tank start point is exactly
the sampled point at position 0, and the sampled point at any valid
position maps the pair `c` to the GEOS point `Point(x := c.2, y := c.1)`. -/
theorem C8_amended_latitude_first (route : List Coord) (pos : ℕ) (c : Coord)
    (h : route.get? pos = some c) :
    startPoint route = samplePoint route 0 ∧
    samplePoint route pos = some ⟨c.2, c.1⟩ :=
  ⟨rfl, by unfold samplePoint; rw [h]; rfl⟩

theorem C8_witness :
    startPoint [((1 : ℚ), (2 : ℚ))] = samplePoint [((1 : ℚ), (2 : ℚ))] 0 ∧
    samplePoint [((1 : ℚ), (2 : ℚ))] 0 = some ⟨2, 1⟩ :=
  C8_amended_latitude_first [((1 : ℚ), (2 : ℚ))] 0 ((1 : ℚ), (2 : ℚ)) rfl

/-- C9 counterexample: the station store is not read-only during
optimization: `find_nearby_stations` (through `geocode_station`'s
`station.save()`) changes the stored location of a sentinel-located
station that its query fetched. -/
theorem C9_counterexample :
    (find_nearby_stations wGeo [s00] origin 1).2 ≠ [s00] := by
  decide

/-- C9 (amended): during optimization the station store is preserved up to
geocoding write-backs: `find_nearby_stations` and `optimize_fuel_stops`
keep every station's identifier, name, address, city, state, rack and
price, leave every station whose stored location is not the `(0, 0)`
sentinel fully unchanged, and neither create nor delete rows. -/
theorem C9_amended_store_frame (w : World) (db : List Station) (pt : GeoPoint)
    (maxd : ℚ) (env : Env) (route : List Coord) (td : ℚ) :
    List.Forall₂ stationFrame db (find_nearby_stations w db pt maxd).2 ∧
    List.Forall₂ stationFrame db (optimize_fuel_stops env w db route td).2 := by
  refine ⟨nearby_db_frame w db pt maxd, ?_⟩
  unfold optimize_fuel_stops
  by_cases hle : td ≤ env.max_range
  · rw [if_pos hle]
    cases hstart : startPoint route with
    | none => exact forall₂_frame_refl db
    | some pt2 =>
      simp only []
      cases hst : (find_nearby_stations w db pt2 50).1 with
      | nil =>
        simp only []
        exact nearby_db_frame w db pt2 50
      | cons s rest =>
        simp only []
        exact nearby_db_frame w db pt2 50
  · rw [if_neg hle]
    exact stopsLoop_frame env w route _ _ _ db [] 0

/-- C6: on a cache miss, when the directions provider reports a
non-success status (`statuscode != 0`), `get_route` raises a
`ValueError` and never returns a `(coordinates, total_distance)` pair or
any partial result. -/
theorem C6_provider_failure (pw : ProviderWorld) (c : Cache) (s e : String)
    (hmiss : c (routeKey s e) = none)
    (hfail : (pw.response s e).statuscode ≠ 0) :
    get_route pw c s e = (.error .valueError, c, true) ∧
    ∀ r c2 b, get_route pw c s e ≠ (.ok r, c2, b) := by
  have h : get_route pw c s e = (.error .valueError, c, true) := by
    unfold get_route
    rw [hmiss]
    simp only []
    rw [if_pos hfail]
  refine ⟨h, fun r c2 b hcontra => ?_⟩
  rw [h] at hcontra
  simp at hcontra

theorem C6_witness :
    (emptyCache (routeKey "a" "b") = none ∧
      (pwBad.response "a" "b").statuscode ≠ 0) ∧
    (get_route pwBad emptyCache "a" "b" =
      (.error .valueError, emptyCache, true) ∧
     ∀ r c2 b, get_route pwBad emptyCache "a" "b" ≠ (.ok r, c2, b)) :=
  ⟨⟨rfl, by decide⟩,
   C6_provider_failure pwBad emptyCache "a" "b" rfl (by decide)⟩

/-- C7: whenever `get_route` returns a result, that result is stored in
the cache under the key derived from the inputs, and a second call with
identical inputs returns the identical result without invoking the
provider (the network-call flag is `false`). -/
theorem C7_route_caching (pw : ProviderWorld) (c : Cache) (s e : String)
    (r : RouteResult) (c2 : Cache) (b : Bool)
    (h : get_route pw c s e = (.ok r, c2, b)) :
    c2 (routeKey s e) = some r ∧
    get_route pw c2 s e = (.ok r, c2, false) := by
  unfold get_route at h
  cases hc : c (routeKey s e) with
  | some r0 =>
    rw [hc] at h
    simp only [Prod.mk.injEq, Except.ok.injEq] at h
    obtain ⟨hr, hcc, hb⟩ := h
    subst hr
    subst hcc
    refine ⟨hc, ?_⟩
    unfold get_route
    rw [hc]
  | none =>
    rw [hc] at h
    simp only [] at h
    by_cases hsc : (pw.response s e).statuscode ≠ 0
    · rw [if_pos hsc] at h
      simp at h
    · rw [if_neg hsc] at h
      cases hp : pairUp (pw.response s e).shapePoints with
      | error err =>
        rw [hp] at h
        simp at h
      | ok coords =>
        rw [hp] at h
        simp only [Prod.mk.injEq, Except.ok.injEq] at h
        obtain ⟨hr, hcc, hb⟩ := h
        have hkey : c2 (routeKey s e) = some r := by
          rw [← hcc, ← hr]
          unfold cacheSet
          simp
        refine ⟨hkey, ?_⟩
        unfold get_route
        rw [hkey]

theorem C7_witness :
    cacheSet emptyCache (routeKey "a" "b")
        ([((1 : ℚ), (2 : ℚ)), ((3 : ℚ), (4 : ℚ))], (5 : ℚ))
        (routeKey "a" "b") =
      some ([((1 : ℚ), (2 : ℚ)), ((3 : ℚ), (4 : ℚ))], (5 : ℚ)) ∧
    get_route pwOk
        (cacheSet emptyCache (routeKey "a" "b")
          ([((1 : ℚ), (2 : ℚ)), ((3 : ℚ), (4 : ℚ))], (5 : ℚ))) "a" "b" =
      (.ok ([((1 : ℚ), (2 : ℚ)), ((3 : ℚ), (4 : ℚ))], (5 : ℚ)),
       cacheSet emptyCache (routeKey "a" "b")
         ([((1 : ℚ), (2 : ℚ)), ((3 : ℚ), (4 : ℚ))], (5 : ℚ)), false) :=
  C7_route_caching pwOk emptyCache "a" "b"
    ([((1 : ℚ), (2 : ℚ)), ((3 : ℚ), (4 : ℚ))], (5 : ℚ))
    (cacheSet emptyCache (routeKey "a" "b")
      ([((1 : ℚ), (2 : ℚ)), ((3 : ℚ), (4 : ℚ))], (5 : ℚ))) true rfl

/-- C4 counterexample: a returned station's location need not lie within
the given radius: a station stored at the `(0, 0)` sentinel is selected
near a `(0, 0)` query point with radius 1 and then geocoded to `(10, 10)`,
so its returned location is at taxicab distance 20 from the query point. -/
theorem C4_counterexample :
    ¬ ∀ fs ∈ (find_nearby_stations wGeo [s00] origin 1).1,
        wGeo.dist fs.location origin ≤ 1 := by
  decide

/-- C4 (amended): `find_nearby_stations` returns at most 5 stations, each
selected because its stored location at query time was within the radius
(a `(0, 0)`-sentinel station may be returned with a geocoded location
outside the radius), with prices non-decreasing and with the underlying
annotated result ordered by ascending price then ascending query-time
distance; when no station qualifies it returns the empty list rather than
an error. -/
theorem C4_amended_nearby_query (w : World) (db : List Station) (pt : GeoPoint)
    (maxd : ℚ) :
    (find_nearby_stations w db pt maxd).1.length ≤ 5 ∧
    ((find_nearby_stations w db pt maxd).1).Pairwise
      (fun a b => a.price ≤ b.price) ∧
    (geocodedWithDist w (nearbyCandidates w db pt maxd)).Pairwise pairLe ∧
    (∀ fs ∈ (find_nearby_stations w db pt maxd).1, ∃ s ∈ db,
      w.dist s.location pt ≤ maxd ∧ fs.id = s.opis_id ∧ fs.price = s.price ∧
      fs.name = s.name) ∧
    ((∀ s ∈ db, ¬ (w.dist s.location pt ≤ maxd)) →
      (find_nearby_stations w db pt maxd).1 = []) :=
  ⟨nearby_length_le w db pt maxd, nearby_pairwise_price w db pt maxd,
   pairwise_geocodedWithDist (pairwise_nearbyCandidates w db pt maxd),
   fun _ hfs => nearby_mem hfs, fun h => nearby_empty_of_none h⟩

/-- C1: on the multi-stop branch (`total_distance > max_range > 0`,
`miles_per_gallon > 0`, nonempty route), `optimize_fuel_stops` uses
`num_stops = floor(total_distance / max_range) + 1` and
`segment_length = total_distance / num_stops`, returns normally with at
most `num_stops` stops, charges exactly
`segment_length / miles_per_gallon * price` per stop actually added, and
every returned stop is the head of a nearby-station query at a sampled
route position `int((i * len(route)) / num_stops)` with `i < num_stops`. -/
theorem C1_multi_stop_structure (env : Env) (w : World) (db : List Station)
    (route : List Coord) (td : ℚ) (hroute : route ≠ [])
    (hmr : 0 < env.max_range) (hmpg : 0 < env.miles_per_gallon)
    (htd : env.max_range < td) :
    numStops td env.max_range = (⌊td / env.max_range⌋).toNat + 1 ∧
    ∃ stops cost,
      (optimize_fuel_stops env w db route td).1 = .ok (stops, cost) ∧
      stops.length ≤ (⌊td / env.max_range⌋).toNat + 1 ∧
      cost = (stops.map fun s =>
        td / (((⌊td / env.max_range⌋).toNat + 1 : ℕ) : ℚ) /
          env.miles_per_gallon * s.price).sum ∧
      ∀ s ∈ stops, ∃ i, i < (⌊td / env.max_range⌋).toNat + 1 ∧
        ∃ db2 pt rest,
          samplePoint route (samplePosition route i
            ((⌊td / env.max_range⌋).toNat + 1)) = some pt ∧
          (find_nearby_stations w db2 pt 50).1 = s :: rest := by
  have h1 : (1 : ℚ) < td / env.max_range := (one_lt_div hmr).mpr htd
  have h0 : (0 : ℚ) ≤ td / env.max_range :=
    le_of_lt (lt_trans zero_lt_one h1)
  have hpy : pyInt (td / env.max_range) = ⌊td / env.max_range⌋ :=
    pyInt_of_nonneg h0
  have hfl : 1 ≤ ⌊td / env.max_range⌋ := by
    rw [Int.le_floor]
    exact_mod_cast le_of_lt h1
  have hns : numStops td env.max_range = (⌊td / env.max_range⌋).toNat + 1 := by
    unfold numStops
    rw [hpy]
    omega
  have hcast : ((pyInt (td / env.max_range) + 1 : ℤ) : ℚ) =
      (((⌊td / env.max_range⌋).toNat + 1 : ℕ) : ℚ) := by
    rw [hpy]
    have : ((⌊td / env.max_range⌋ + 1 : ℤ)) =
        (((⌊td / env.max_range⌋).toNat + 1 : ℕ) : ℤ) := by omega
    exact_mod_cast congrArg (fun z : ℤ => (z : ℚ)) this
  refine ⟨hns, ?_⟩
  obtain ⟨news, hok, hlen, hmem⟩ :=
    stopsLoop_spec env w route
      (td / ((pyInt (td / env.max_range) + 1 : ℤ) : ℚ))
      (numStops td env.max_range)
      (List.range (numStops td env.max_range)) db [] 0
      fun j hj => samplePosition_lt hroute (List.mem_range.mp hj)
  have hnotle : ¬ (td ≤ env.max_range) := not_le.mpr htd
  have hseg : (td / ((pyInt (td / env.max_range) + 1 : ℤ) : ℚ)) =
      td / (((⌊td / env.max_range⌋).toNat + 1 : ℕ) : ℚ) := by
    rw [hcast]
  refine ⟨news, (news.map fun s =>
      td / (((⌊td / env.max_range⌋).toNat + 1 : ℕ) : ℚ) /
        env.miles_per_gallon * s.price).sum, ?_, ?_, rfl, ?_⟩
  · unfold optimize_fuel_stops
    rw [if_neg hnotle, hok]
    simp only [List.nil_append, zero_add, calculate_fuel_cost, hseg]
  · rw [← hns]
    simpa [List.length_range] using hlen
  · intro s hs
    obtain ⟨i, hi, rest2⟩ := hmem s hs
    rw [← hns]
    exact ⟨i, List.mem_range.mp hi, rest2⟩

theorem C1_witness :
    (([((29 : ℚ), (-95 : ℚ))] : List Coord) ≠ [] ∧ 0 < env0.max_range ∧
      0 < env0.miles_per_gallon ∧ env0.max_range < 1250) ∧
    (numStops 1250 env0.max_range = (⌊(1250 : ℚ) / env0.max_range⌋).toNat + 1 ∧
     ∃ stops cost,
      (optimize_fuel_stops env0 wPlain [] [((29 : ℚ), (-95 : ℚ))] 1250).1 =
        .ok (stops, cost) ∧
      stops.length ≤ (⌊(1250 : ℚ) / env0.max_range⌋).toNat + 1 ∧
      cost = (stops.map fun s =>
        (1250 : ℚ) / (((⌊(1250 : ℚ) / env0.max_range⌋).toNat + 1 : ℕ) : ℚ) /
          env0.miles_per_gallon * s.price).sum ∧
      ∀ s ∈ stops, ∃ i, i < (⌊(1250 : ℚ) / env0.max_range⌋).toNat + 1 ∧
        ∃ db2 pt rest,
          samplePoint [((29 : ℚ), (-95 : ℚ))] (samplePosition
            [((29 : ℚ), (-95 : ℚ))] i
            ((⌊(1250 : ℚ) / env0.max_range⌋).toNat + 1)) = some pt ∧
          (find_nearby_stations wPlain db2 pt 50).1 = s :: rest) :=
  ⟨⟨by decide, by norm_num [env0], by norm_num [env0], by norm_num [env0]⟩,
   C1_multi_stop_structure env0 wPlain [] [((29 : ℚ), (-95 : ℚ))] 1250
     (by decide) (by norm_num [env0]) (by norm_num [env0])
     (by norm_num [env0])⟩

/-- C2: on the single-tank branch (`0 ≤ total_distance ≤ max_range`,
nonempty route), `optimize_fuel_stops` queries stations near the route's
first point; with no result it returns no stops and zero cost, otherwise
it returns exactly the head of the query result — whose price is minimal
among the stations found — at cost
`total_distance / miles_per_gallon * price`; in all cases at most one
stop is returned. -/
theorem C2_single_tank (env : Env) (w : World) (db : List Station)
    (route : List Coord) (td : ℚ) (c : Coord)
    (hc : route.get? 0 = some c) (h0 : 0 ≤ td) (hle : td ≤ env.max_range) :
    ((find_nearby_stations w db ⟨c.2, c.1⟩ 50).1 = [] →
      (optimize_fuel_stops env w db route td).1 = .ok ([], 0)) ∧
    (∀ s rest, (find_nearby_stations w db ⟨c.2, c.1⟩ 50).1 = s :: rest →
      (optimize_fuel_stops env w db route td).1 =
        .ok ([s], td / env.miles_per_gallon * s.price) ∧
      ∀ t ∈ s :: rest, s.price ≤ t.price) ∧
    ∃ stops cost,
      (optimize_fuel_stops env w db route td).1 = .ok (stops, cost) ∧
      stops.length ≤ 1 := by
  have hstart : startPoint route = some ⟨c.2, c.1⟩ := by
    unfold startPoint
    rw [hc]
    rfl
  have hred : ∀ st2 : List FuelStation,
      (find_nearby_stations w db ⟨c.2, c.1⟩ 50).1 = st2 →
      (optimize_fuel_stops env w db route td).1 =
        (match st2 with
         | [] => .ok ([], 0)
         | s :: _ => .ok ([s], calculate_fuel_cost env td s.price)) := by
    intro st2 hst2
    unfold optimize_fuel_stops
    rw [if_pos hle, hstart]
    simp only []
    rw [hst2]
    cases st2 with
    | nil => rfl
    | cons s rest => rfl
  refine ⟨fun hempty => by simpa using hred [] hempty, ?_, ?_⟩
  · intro s rest hcons
    refine ⟨by simpa [calculate_fuel_cost] using hred (s :: rest) hcons, ?_⟩
    intro t ht
    have hpair := nearby_pairwise_price w db ⟨c.2, c.1⟩ 50
    rw [hcons] at hpair
    rcases List.mem_cons.mp ht with rfl | ht2
    · exact le_refl _
    · exact List.rel_of_pairwise_cons hpair ht2
  · cases hst : (find_nearby_stations w db ⟨c.2, c.1⟩ 50).1 with
    | nil => exact ⟨[], 0, by simpa using hred [] hst, by simp⟩
    | cons s rest =>
      exact ⟨[s], calculate_fuel_cost env td s.price,
        by simpa using hred (s :: rest) hst, by simp⟩

theorem C2_witness :
    (([((1 : ℚ), (2 : ℚ))] : List Coord).get? 0 = some ((1 : ℚ), (2 : ℚ)) ∧
      (0 : ℚ) ≤ 400 ∧ (400 : ℚ) ≤ env0.max_range) ∧
    (((find_nearby_stations wPlain [sTex] ⟨2, 1⟩ 50).1 = [] →
      (optimize_fuel_stops env0 wPlain [sTex] [((1 : ℚ), (2 : ℚ))] 400).1 =
        .ok ([], 0)) ∧
    (∀ s rest, (find_nearby_stations wPlain [sTex] ⟨2, 1⟩ 50).1 = s :: rest →
      (optimize_fuel_stops env0 wPlain [sTex] [((1 : ℚ), (2 : ℚ))] 400).1 =
        .ok ([s], 400 / env0.miles_per_gallon * s.price) ∧
      ∀ t ∈ s :: rest, s.price ≤ t.price) ∧
    ∃ stops cost,
      (optimize_fuel_stops env0 wPlain [sTex] [((1 : ℚ), (2 : ℚ))] 400).1 =
        .ok (stops, cost) ∧
      stops.length ≤ 1) :=
  ⟨⟨rfl, by norm_num, by norm_num [env0]⟩,
   C2_single_tank env0 wPlain [sTex] [((1 : ℚ), (2 : ℚ))] 400
     ((1 : ℚ), (2 : ℚ)) rfl (by norm_num) (by norm_num [env0])⟩

/-- C3: whatever the inputs, when `optimize_fuel_stops` returns normally
no two consecutive entries of the returned stop list share a station
identifier (the duplicate candidate is skipped without a substitute). -/
theorem C3_no_consecutive_duplicates (env : Env) (w : World)
    (db : List Station) (route : List Coord) (td : ℚ)
    (stops : List FuelStation) (cost : ℚ)
    (h : (optimize_fuel_stops env w db route td).1 = .ok (stops, cost)) :
    stops.Chain' fun a b => a.id ≠ b.id := by
  unfold optimize_fuel_stops at h
  by_cases hle : td ≤ env.max_range
  · rw [if_pos hle] at h
    cases hstart : startPoint route with
    | none => rw [hstart] at h; simp at h
    | some pt =>
      rw [hstart] at h
      simp only [] at h
      cases hst : (find_nearby_stations w db pt 50).1 with
      | nil =>
        rw [hst] at h
        simp only [Except.ok.injEq, Prod.mk.injEq] at h
        rw [← h.1]
        simp
      | cons s rest =>
        rw [hst] at h
        simp only [Except.ok.injEq, Prod.mk.injEq] at h
        rw [← h.1]
        simp
  · rw [if_neg hle] at h
    exact stopsLoop_chain env w route _ _ _ _ _ _ _ _ (by simp) h

theorem C3_witness :
    ((optimize_fuel_stops env0 wPlain [] [((0 : ℚ), (0 : ℚ))] 100).1 =
      .ok ([], 0)) ∧
    ([] : List FuelStation).Chain' (fun a b => a.id ≠ b.id) :=
  ⟨rfl,
   C3_no_consecutive_duplicates env0 wPlain [] [((0 : ℚ), (0 : ℚ))] 100 [] 0
     rfl⟩

/-- C5: for the empty route the code does not validate its input: both
branches of `optimize_fuel_stops` index the empty sequence and raise
`IndexError` (surfaced as a generic internal error), instead of the
explicit validation error the specification requires. -/
theorem C5_empty_route_index_error (env : Env) (w : World)
    (db : List Station) (td : ℚ) (hmr : 0 < env.max_range) :
    optimize_fuel_stops env w db [] td = (.error .indexOutOfBounds, db) := by
  unfold optimize_fuel_stops
  by_cases hle : td ≤ env.max_range
  · rw [if_pos hle]
    rfl
  · rw [if_neg hle]
    have h1 : (1 : ℚ) < td / env.max_range :=
      (one_lt_div hmr).mpr (not_le.mp hle)
    have hpy : pyInt (td / env.max_range) = ⌊td / env.max_range⌋ :=
      pyInt_of_nonneg (le_of_lt (lt_trans zero_lt_one h1))
    have hfl : 1 ≤ ⌊td / env.max_range⌋ := by
      rw [Int.le_floor]
      exact_mod_cast le_of_lt h1
    have hns : 0 < numStops td env.max_range := by
      unfold numStops
      rw [hpy]
      omega
    obtain ⟨n, hn⟩ : ∃ n, numStops td env.max_range = n + 1 :=
      ⟨_, (Nat.succ_pred_eq_of_pos hns).symm⟩
    rw [hn, List.range_succ_eq_map]
    rfl

theorem C5_witness :
    0 < env0.max_range ∧
    optimize_fuel_stops env0 wPlain [] [] 100 =
      (.error .indexOutOfBounds, []) :=
  ⟨by norm_num [env0],
   C5_empty_route_index_error env0 wPlain [] 100 (by norm_num [env0])⟩

theorem C4_witness :
    (find_nearby_stations wPlain [sTex] origin 50).1.length ≤ 5 ∧
    ((find_nearby_stations wPlain [sTex] origin 50).1).Pairwise
      (fun a b => a.price ≤ b.price) ∧
    (geocodedWithDist wPlain (nearbyCandidates wPlain [sTex] origin 50)).Pairwise
      pairLe ∧
    (∀ fs ∈ (find_nearby_stations wPlain [sTex] origin 50).1, ∃ s ∈ [sTex],
      wPlain.dist s.location origin ≤ 50 ∧ fs.id = s.opis_id ∧
      fs.price = s.price ∧ fs.name = s.name) ∧
    ((∀ s ∈ [sTex], ¬ (wPlain.dist s.location origin ≤ 50)) →
      (find_nearby_stations wPlain [sTex] origin 50).1 = []) :=
  C4_amended_nearby_query wPlain [sTex] origin 50

end RoutePlanner
